import Mathlib

/-!
Verification development for the project-setup wizard module
(`python/tank/deploy/tank_commands/setup_project_wizard.py`).

The module is a thin sequencing and validation layer: a factory that opens
two remote connections, and a wizard object whose methods validate and
accumulate parameters before delegating to external provisioning routines.
The definitions below are a shallow embedding of that code.  External
collaborators (the remote record service, the parameter store, the
filesystem, the core-resolution utilities) are passed in as explicit
parameters or, where their behaviour decides a property, modelled from the
specification of their contracts.

String operations mirror CPython semantics: `pyIn` is the substring test
of the `in` operator, `pyReplace` is `str.replace` (every non-overlapping
occurrence, scanning left to right).
-/

namespace Tank

/-- Boolean test that `a` is a prefix of `b` (CPython `startswith` on lists
of characters). -/
def isPrefixList : List Char → List Char → Bool
  | [], _ => true
  | _ :: _, [] => false
  | a :: as, b :: bs => a == b && isPrefixList as bs

/-- Boolean substring test: `sub` occurs contiguously inside `l`
(the CPython `in` operator on strings). -/
def isInfixList (sub : List Char) : List Char → Bool
  | [] => sub == []
  | b :: bs => isPrefixList sub (b :: bs) || isInfixList sub bs

/-- Fuelled scanner for `str.replace` with a non-empty pattern: at each
position, if `old` starts here, emit `new` and skip `old.length`
characters, else keep the character and advance.  The fuel argument is a
termination device only; it is irrelevant once it is at least the length
of the scanned list (`replaceFuel_irrel`). -/
def replaceFuel (old new : List Char) : Nat → List Char → List Char
  | _, [] => []
  | 0, s => s
  | fuel + 1, c :: rest =>
    if isPrefixList old (c :: rest) then
      new ++ replaceFuel old new fuel (List.drop (old.length - 1) rest)
    else
      c :: replaceFuel old new fuel rest

/-- `str.replace` scan on character lists (non-empty pattern case). -/
def replaceList (old new s : List Char) : List Char :=
  replaceFuel old new s.length s

/-- CPython `sub in s` for strings. -/
def pyIn (sub s : String) : Bool :=
  isInfixList sub.data s.data

/-- CPython `s.replace(old, new)`: every non-overlapping occurrence of
`old` in `s` is replaced by `new`, scanning left to right.  An empty `old`
matches at every position including the end, as in CPython. -/
def pyReplace (s old new : String) : String :=
  if old.data = [] then
    ⟨new.data ++ s.data.flatMap (fun c => c :: new.data)⟩
  else
    ⟨replaceList old.data new.data s.data⟩

theorem isPrefixList_iff (a b : List Char) : isPrefixList a b = true ↔ a <+: b := by
  induction a generalizing b with
  | nil => simp [isPrefixList, List.nil_prefix]
  | cons x xs ih =>
    cases b with
    | nil => simp [isPrefixList, List.prefix_nil]
    | cons y ys =>
      simp [isPrefixList, List.cons_prefix_cons, ih, And.comm]

theorem isInfixList_iff (a b : List Char) : isInfixList a b = true ↔ a <:+: b := by
  induction b with
  | nil => simp [isInfixList, List.infix_nil]
  | cons y ys ih =>
    simp [isInfixList, List.infix_cons_iff, isPrefixList_iff, ih]

theorem pyIn_iff (sub s : String) : pyIn sub s = true ↔ sub.data <:+: s.data := by
  simp [pyIn, isInfixList_iff]

theorem replaceFuel_irrel (old new : List Char) (f₁ f₂ : Nat) (s : List Char)
    (h₁ : s.length ≤ f₁) (h₂ : s.length ≤ f₂) :
    replaceFuel old new f₁ s = replaceFuel old new f₂ s := by
  induction f₁ generalizing f₂ s with
  | zero =>
    cases s with
    | nil => cases f₂ <;> rfl
    | cons c rest => simp at h₁
  | succ a ih =>
    cases s with
    | nil => cases f₂ <;> rfl
    | cons c rest =>
      cases f₂ with
      | zero => simp at h₂
      | succ b =>
        simp only [List.length_cons] at h₁ h₂
        simp only [replaceFuel]
        by_cases hp : isPrefixList old (c :: rest) = true
        · simp only [hp, if_true]
          have hd : (List.drop (old.length - 1) rest).length ≤ rest.length := by
            simp [List.length_drop]
          exact congrArg (new ++ ·)
              (ih b (List.drop (old.length - 1) rest)
                (Nat.le_trans hd (Nat.le_of_succ_le_succ h₁))
                (Nat.le_trans hd (Nat.le_of_succ_le_succ h₂)))
        · simp only [hp, if_false]
          exact congrArg (c :: ·)
              (ih b rest (Nat.le_of_succ_le_succ h₁) (Nat.le_of_succ_le_succ h₂))

theorem replaceList_nil (old new : List Char) : replaceList old new [] = [] := rfl

theorem replaceList_cons (old new : List Char) (c : Char) (rest : List Char) :
    replaceList old new (c :: rest) =
      if isPrefixList old (c :: rest) then
        new ++ replaceList old new (List.drop (old.length - 1) rest)
      else
        c :: replaceList old new rest := by
  have hd : (List.drop (old.length - 1) rest).length ≤ rest.length := by
    simp [List.length_drop]
  simp only [replaceList, List.length_cons, replaceFuel]
  by_cases hp : isPrefixList old (c :: rest) = true
  · simp only [hp, if_true]
    exact congrArg (new ++ ·)
      (replaceFuel_irrel old new rest.length (List.drop (old.length - 1) rest).length
        (List.drop (old.length - 1) rest) hd (Nat.le_refl _))
  · simp [hp]

/-- Scanning a block that starts with a full occurrence of the (non-empty)
pattern replaces that occurrence and continues after it. -/
theorem replaceList_head_match (old new y : List Char) (h : old ≠ []) :
    replaceList old new (old ++ y) = new ++ replaceList old new y := by
  cases old with
  | nil => exact absurd rfl h
  | cons o os =>
    have hp : isPrefixList (o :: os) (o :: (os ++ y)) = true := by
      rw [isPrefixList_iff, ← List.cons_append]
      exact ⟨y, rfl⟩
    rw [List.cons_append, replaceList_cons]
    simp only [hp, if_true, List.length_cons, Nat.add_sub_cancel]
    rw [List.drop_left os y]

/-- Characters that do not occur in the (non-empty) pattern can never start
a match, so a block of them passes through the scan unchanged, and the scan
continues right after it. -/
theorem replaceList_skip (old new x y : List Char) (h : old ≠ [])
    (hx : ∀ c ∈ x, c ∉ old) :
    replaceList old new (x ++ y) = x ++ replaceList old new y := by
  induction x with
  | nil => simp
  | cons c xs ih =>
    have hc : c ∉ old := hx c (List.mem_cons_self c xs)
    have hp : isPrefixList old (c :: (xs ++ y)) = false := by
      cases old with
      | nil => exact absurd rfl h
      | cons o os =>
        have : o ≠ c := fun he => hc (he ▸ List.mem_cons_self o os)
        simp [isPrefixList, this]
    simp only [List.cons_append, replaceList_cons, hp, Bool.false_eq_true, if_false]
    exact congrArg (c :: ·) (ih (fun d hd => hx d (List.mem_cons_of_mem c hd)))

/-- A block containing no character of the (non-empty) pattern is left
unchanged by the scan. -/
theorem replaceList_no_match (old new x : List Char) (h : old ≠ [])
    (hx : ∀ c ∈ x, c ∉ old) :
    replaceList old new x = x := by
  have := replaceList_skip old new x [] h hx
  simpa [replaceList_nil] using this

/-- Platform keys in `sys.platform` jargon, as used throughout the module. -/
inductive SgPlatform
  | darwin
  | linux2
  | win32
deriving DecidableEq

/-- A PipelineConfiguration record as fetched from the remote record
service with the fields requested by the module: per-platform root paths,
the `code` classification, the creation timestamp used for sorting, and
the owning project's disk name (`project.Project.tank_name`).  Any string
field may come back absent. -/
structure SgRecord where
  id : Nat
  code : String
  created_at : Nat
  mac_path : Option String
  windows_path : Option String
  linux_path : Option String
  tank_name : Option String
deriving DecidableEq

/-- The `lookup` table in `execute`: platform key to record path field. -/
def platform_root (d : SgRecord) : SgPlatform → Option String
  | SgPlatform.darwin => d.mac_path
  | SgPlatform.linux2 => d.linux_path
  | SgPlatform.win32 => d.windows_path

/-- Record with the greatest `created_at`; on ties the earlier record in
service order wins, matching the head of a stable descending sort. -/
def most_recent : List SgRecord → Option SgRecord
  | [] => none
  | r :: rs =>
    match most_recent rs with
    | none => some r
    | some b => if b.created_at > r.created_at then some b else some r

/-- Modelled from the spec: the external ProjectManagementService
`findOne` call issued by the module, with record type
PipelineConfiguration, filter `code is primary` and sort order
`created_at` descending — it returns the most recently created matching
record, or absent when no record matches (setup_project_wizard.py only
issues the call; the service itself is an external collaborator). -/
def sg_find_one_primary (db : List SgRecord) : Option SgRecord :=
  most_recent (db.filter (fun r => r.code == "primary"))

/-- Tier resolution shared by `get_default_configuration_location` and
`execute`: take the record linked to the active configuration template if
there is one, otherwise fall back on the most recent primary record. -/
def resolve_basis (cfgInfo : Option SgRecord) (db : List SgRecord) : Option SgRecord :=
  match cfgInfo with
  | some d => some d
  | none => sg_find_one_primary db

/-- The per-platform suggestion dictionary returned by
`get_default_configuration_location`. -/
structure SuggestedDefaults where
  darwin : Option String
  linux2 : Option String
  win32 : Option String
deriving DecidableEq

/-- One platform branch of the suggestion logic:
`if data[field] and old in data[field]: suggestion = data[field].replace(old, new)`.
The truthiness guard (absent or empty path) is evaluated first; only then
is the substring test made and the substitution performed. -/
def path_suggestion (stored : Option String) (old new : String) : Option String :=
  match stored with
  | none => none
  | some p => if p = "" then none else if pyIn old p then some (pyReplace p old new) else none

/-- `SetupProjectWizard.get_default_configuration_location`.  The record
linked to the active template and the state of the remote service are
explicit inputs; `new_proj_disk_name` is the committed project disk name.
Accessing `.replace` on an absent `tank_name` is the one failure mode
(AttributeError on None), modelled as `Except.error`. -/
def get_default_configuration_location (cfgInfo : Option SgRecord)
    (db : List SgRecord) (new_proj_disk_name : String) :
    Except String SuggestedDefaults :=
  let new_proj_disk_name_win := pyReplace new_proj_disk_name "/" "\\"
  match resolve_basis cfgInfo db with
  | none => Except.ok ⟨none, none, none⟩
  | some data =>
    match data.tank_name with
    | none => Except.error "AttributeError: NoneType object has no attribute replace"
    | some old_project_disk_name =>
      let old_project_disk_name_win := pyReplace old_project_disk_name "/" "\\"
      Except.ok
        { darwin := path_suggestion data.mac_path old_project_disk_name new_proj_disk_name
          linux2 := path_suggestion data.linux_path old_project_disk_name new_proj_disk_name
          win32 := path_suggestion data.windows_path old_project_disk_name_win new_proj_disk_name_win }

theorem most_recent_eq_none (l : List SgRecord) :
    most_recent l = none ↔ l = [] := by
  cases l with
  | nil => simp [most_recent]
  | cons a as =>
    simp only [most_recent]
    cases most_recent as with
    | none => simp
    | some b =>
      by_cases hc : b.created_at > a.created_at <;> simp [hc]

theorem most_recent_mem (l : List SgRecord) (r : SgRecord)
    (h : most_recent l = some r) : r ∈ l := by
  induction l with
  | nil => simp [most_recent] at h
  | cons a as ih =>
    simp only [most_recent] at h
    cases hm : most_recent as with
    | none =>
      rw [hm] at h
      simp only [Option.some.injEq] at h
      subst h
      exact List.mem_cons_self a as
    | some b =>
      rw [hm] at h
      by_cases hc : b.created_at > a.created_at
      · simp only [hc, if_true, Option.some.injEq] at h
        subst h
        exact List.mem_cons_of_mem a (ih hm)
      · simp only [hc, if_false, Option.some.injEq] at h
        subst h
        exact List.mem_cons_self a as

theorem most_recent_max (l : List SgRecord) (r : SgRecord)
    (h : most_recent l = some r) : ∀ x ∈ l, x.created_at ≤ r.created_at := by
  induction l generalizing r with
  | nil => simp [most_recent] at h
  | cons a as ih =>
    intro x hx
    simp only [most_recent] at h
    cases hm : most_recent as with
    | none =>
      have has : as = [] := (most_recent_eq_none as).mp hm
      subst has
      rw [hm] at h
      simp only [Option.some.injEq] at h
      subst h
      simp at hx
      subst hx
      exact Nat.le_refl _
    | some b =>
      rw [hm] at h
      by_cases hc : b.created_at > a.created_at
      · simp only [hc, if_true, Option.some.injEq] at h
        subst h
        rcases List.mem_cons.mp hx with hxa | hxs
        · subst hxa
          exact Nat.le_of_lt hc
        · exact ih b hm x hxs
      · simp only [hc, if_false, Option.some.injEq] at h
        subst h
        rcases List.mem_cons.mp hx with hxa | hxs
        · subst hxa
          exact Nat.le_refl _
        · exact Nat.le_trans (ih b hm x hxs) (Nat.le_of_not_lt hc)

theorem path_suggestion_pos (p old new : String) (hp : p ≠ "")
    (hin : old.data <:+: p.data) :
    path_suggestion (some p) old new = some (pyReplace p old new) := by
  simp [path_suggestion, hp, (pyIn_iff old p).mpr hin]

theorem path_suggestion_neg (p old new : String) (hp : p ≠ "")
    (hin : ¬ old.data <:+: p.data) :
    path_suggestion (some p) old new = none := by
  have hb : pyIn old p = false := by
    cases hq : pyIn old p with
    | false => rfl
    | true => exact absurd ((pyIn_iff old p).mp hq) hin
  simp [path_suggestion, hp, hb]

theorem path_suggestion_absent (stored : Option String) (old new : String)
    (h : stored = none ∨ stored = some "") :
    path_suggestion stored old new = none := by
  rcases h with h | h <;> subst h <;> simp [path_suggestion]

theorem gdcl_some (cfgInfo : Option SgRecord) (db : List SgRecord) (new old : String)
    (d : SgRecord) (hb : resolve_basis cfgInfo db = some d)
    (h : d.tank_name = some old) :
    get_default_configuration_location cfgInfo db new =
      Except.ok
        { darwin := path_suggestion d.mac_path old new
          linux2 := path_suggestion d.linux_path old new
          win32 := path_suggestion d.windows_path
            (pyReplace old "/" "\\") (pyReplace new "/" "\\") } := by
  simp [get_default_configuration_location, hb, h]

/-- C1: for every basis record and for each of the three platforms
independently, if the stored path for that platform is present (non-absent
and non-empty) and contains the old project disk name as a literal
substring — the forward-slash form for mac and linux, the backslash form
for windows — the suggestion for that platform is the stored path with
the new disk name substituted, otherwise that platform's suggestion is
absent; each platform's result depends only on that platform's stored
path. -/
theorem claim_C1 (cfgInfo : Option SgRecord) (db : List SgRecord) (d : SgRecord)
    (old new : String) (hb : resolve_basis cfgInfo db = some d)
    (h : d.tank_name = some old) :
    ∃ s : SuggestedDefaults,
      get_default_configuration_location cfgInfo db new = Except.ok s
      ∧ (∀ p, d.mac_path = some p → p ≠ "" → old.data <:+: p.data →
          s.darwin = some (pyReplace p old new))
      ∧ (∀ p, d.mac_path = some p → p ≠ "" → ¬ old.data <:+: p.data →
          s.darwin = none)
      ∧ ((d.mac_path = none ∨ d.mac_path = some "") → s.darwin = none)
      ∧ (∀ p, d.linux_path = some p → p ≠ "" → old.data <:+: p.data →
          s.linux2 = some (pyReplace p old new))
      ∧ (∀ p, d.linux_path = some p → p ≠ "" → ¬ old.data <:+: p.data →
          s.linux2 = none)
      ∧ ((d.linux_path = none ∨ d.linux_path = some "") → s.linux2 = none)
      ∧ (∀ p, d.windows_path = some p → p ≠ "" →
          (pyReplace old "/" "\\").data <:+: p.data →
          s.win32 = some (pyReplace p (pyReplace old "/" "\\") (pyReplace new "/" "\\")))
      ∧ (∀ p, d.windows_path = some p → p ≠ "" →
          ¬ (pyReplace old "/" "\\").data <:+: p.data →
          s.win32 = none)
      ∧ ((d.windows_path = none ∨ d.windows_path = some "") → s.win32 = none) := by
  refine ⟨_, gdcl_some cfgInfo db new old d hb h, ?_, ?_, ?_, ?_, ?_, ?_, ?_, ?_, ?_⟩
  · intro p hp hne hin
    rw [show d.mac_path = some p from hp] at *
    exact path_suggestion_pos p old new hne hin
  · intro p hp hne hin
    rw [show d.mac_path = some p from hp] at *
    exact path_suggestion_neg p old new hne hin
  · intro hab
    exact path_suggestion_absent d.mac_path old new hab
  · intro p hp hne hin
    rw [show d.linux_path = some p from hp] at *
    exact path_suggestion_pos p old new hne hin
  · intro p hp hne hin
    rw [show d.linux_path = some p from hp] at *
    exact path_suggestion_neg p old new hne hin
  · intro hab
    exact path_suggestion_absent d.linux_path old new hab
  · intro p hp hne hin
    rw [show d.windows_path = some p from hp] at *
    exact path_suggestion_pos p (pyReplace old "/" "\\") (pyReplace new "/" "\\") hne hin
  · intro p hp hne hin
    rw [show d.windows_path = some p from hp] at *
    exact path_suggestion_neg p (pyReplace old "/" "\\") (pyReplace new "/" "\\") hne hin
  · intro hab
    exact path_suggestion_absent d.windows_path (pyReplace old "/" "\\")
      (pyReplace new "/" "\\") hab

theorem claim_C1_witness :
    get_default_configuration_location
        (some ⟨1, "primary", 1, some "/mnt/foo/bar/configs", none,
               some "/mnt/foobar/configs", some "foo/bar"⟩)
        [] "baz/qux"
      = Except.ok ⟨some "/mnt/baz/qux/configs", none, none⟩ := by
  obtain ⟨s, hs, h1, _, _, _, h5, _, _, _, h9⟩ :=
    claim_C1 (some ⟨1, "primary", 1, some "/mnt/foo/bar/configs", none,
                    some "/mnt/foobar/configs", some "foo/bar"⟩) []
      ⟨1, "primary", 1, some "/mnt/foo/bar/configs", none,
       some "/mnt/foobar/configs", some "foo/bar"⟩ "foo/bar" "baz/qux" rfl rfl
  have hd : s.darwin = some (pyReplace "/mnt/foo/bar/configs" "foo/bar" "baz/qux") :=
    h1 "/mnt/foo/bar/configs" rfl (by decide)
      ((isInfixList_iff "foo/bar".data "/mnt/foo/bar/configs".data).mp (by decide))
  have hl : s.linux2 = none :=
    h5 "/mnt/foobar/configs" rfl (by decide)
      (fun hin => by
        have := (isInfixList_iff "foo/bar".data "/mnt/foobar/configs".data).mpr hin
        exact absurd this (by decide))
  have hw : s.win32 = none := h9 (Or.inl rfl)
  rw [hs]
  cases s
  simp only at hd hl hw
  rw [hd, hl, hw]
  have hrep : pyReplace "/mnt/foo/bar/configs" "foo/bar" "baz/qux" = "/mnt/baz/qux/configs" := by
    decide
  rw [hrep]

/-- C2: the basis record is resolved in three tiers — the record linked to
the active template when present; otherwise the single most recently
created record flagged primary from the external service; and when neither
exists the function returns the dictionary mapping all three platform
keys to absent. -/
theorem claim_C2 (cfgInfo : Option SgRecord) (db : List SgRecord) (new : String) :
    (∀ r, cfgInfo = some r → resolve_basis cfgInfo db = some r)
    ∧ (cfgInfo = none → resolve_basis cfgInfo db = sg_find_one_primary db)
    ∧ (∀ r, sg_find_one_primary db = some r →
        r ∈ db ∧ r.code = "primary"
        ∧ ∀ x ∈ db, x.code = "primary" → x.created_at ≤ r.created_at)
    ∧ (sg_find_one_primary db = none ↔ ∀ x ∈ db, x.code ≠ "primary")
    ∧ (resolve_basis cfgInfo db = none →
        get_default_configuration_location cfgInfo db new = Except.ok ⟨none, none, none⟩) := by
  refine ⟨?_, ?_, ?_, ?_, ?_⟩
  · intro r hr
    simp [resolve_basis, hr]
  · intro hr
    simp [resolve_basis, hr]
  · intro r hr
    have hmem := most_recent_mem _ r hr
    have hmax := most_recent_max _ r hr
    have hf := List.mem_filter.mp hmem
    refine ⟨hf.1, by simpa using hf.2, ?_⟩
    intro x hx hxc
    exact hmax x (List.mem_filter.mpr ⟨hx, by simp [hxc]⟩)
  · rw [sg_find_one_primary, most_recent_eq_none, List.filter_eq_nil_iff]
    simp
  · intro hr
    simp [get_default_configuration_location, hr]

theorem claim_C2_witness :
    resolve_basis (some ⟨7, "dev", 3, none, none, none, none⟩)
        [⟨1, "primary", 5, none, none, none, some "a"⟩]
      = some ⟨7, "dev", 3, none, none, none, none⟩
    ∧ resolve_basis none [⟨1, "primary", 5, none, none, none, some "a"⟩]
      = sg_find_one_primary [⟨1, "primary", 5, none, none, none, some "a"⟩]
    ∧ (⟨2, "primary", 9, none, none, none, some "b"⟩ : SgRecord)
        ∈ [⟨1, "primary", 5, none, none, none, some "a"⟩,
           ⟨2, "primary", 9, none, none, none, some "b"⟩,
           ⟨3, "dev", 99, none, none, none, some "c"⟩]
    ∧ (⟨2, "primary", 9, none, none, none, some "b"⟩ : SgRecord).code = "primary"
    ∧ (⟨1, "primary", 5, none, none, none, some "a"⟩ : SgRecord).created_at
        ≤ (⟨2, "primary", 9, none, none, none, some "b"⟩ : SgRecord).created_at
    ∧ get_default_configuration_location none [] "newproj" = Except.ok ⟨none, none, none⟩ := by
  have h3 := (claim_C2 none
      [⟨1, "primary", 5, none, none, none, some "a"⟩,
       ⟨2, "primary", 9, none, none, none, some "b"⟩,
       ⟨3, "dev", 99, none, none, none, some "c"⟩] "n").2.2.1
      ⟨2, "primary", 9, none, none, none, some "b"⟩ (by decide)
  refine ⟨(claim_C2 (some ⟨7, "dev", 3, none, none, none, none⟩)
            [⟨1, "primary", 5, none, none, none, some "a"⟩] "n").1 _ rfl,
          (claim_C2 none [⟨1, "primary", 5, none, none, none, some "a"⟩] "n").2.1 rfl,
          h3.1, h3.2.1,
          h3.2.2 ⟨1, "primary", 5, none, none, none, some "a"⟩ (by decide) rfl,
          (claim_C2 none [] "newproj").2.2.2.2 (by decide)⟩

/-- C9: the substitution performed by `get_default_configuration_location`
replaces every occurrence of the old project disk name in a stored path,
not only the first — `str.replace` semantics.  Here the mac path contains
the old name twice, in blocks separated by text sharing no character with
the old name, and both occurrences are replaced. -/
theorem claim_C9 (cfgInfo : Option SgRecord) (db : List SgRecord) (d : SgRecord)
    (a b c old new : String)
    (hbas : resolve_basis cfgInfo db = some d)
    (ht : d.tank_name = some old) (hold : old ≠ "")
    (hm : d.mac_path = some (a ++ old ++ b ++ old ++ c))
    (ha : ∀ ch ∈ a.data, ch ∉ old.data)
    (hb : ∀ ch ∈ b.data, ch ∉ old.data)
    (hc : ∀ ch ∈ c.data, ch ∉ old.data) :
    ∃ s : SuggestedDefaults,
      get_default_configuration_location cfgInfo db new = Except.ok s
      ∧ s.darwin = some (a ++ new ++ b ++ new ++ c) := by
  refine ⟨_, gdcl_some cfgInfo db new old d hbas ht, ?_⟩
  show path_suggestion d.mac_path old new = some (a ++ new ++ b ++ new ++ c)
  rw [hm]
  have holdd : old.data ≠ [] := by
    intro hnil
    exact hold (String.ext (by rw [hnil]))
  have hdata : (a ++ old ++ b ++ old ++ c).data
      = a.data ++ (old.data ++ (b.data ++ (old.data ++ c.data))) := by
    simp [String.data_append]
  have hne : (a ++ old ++ b ++ old ++ c) ≠ "" := by
    intro heq
    have hd := congrArg String.data heq
    rw [hdata] at hd
    simp only [String.data] at hd
    simp at hd
    exact holdd hd.2.1
  have hin : old.data <:+: (a ++ old ++ b ++ old ++ c).data :=
    ⟨a.data, b.data ++ (old.data ++ c.data), by rw [hdata]; simp⟩
  rw [path_suggestion_pos _ _ _ hne hin]
  have hrl : replaceList old.data new.data ((a ++ old ++ b ++ old ++ c).data)
      = a.data ++ (new.data ++ (b.data ++ (new.data ++ c.data))) := by
    rw [hdata,
        replaceList_skip old.data new.data a.data _ holdd ha,
        replaceList_head_match old.data new.data _ holdd,
        replaceList_skip old.data new.data b.data _ holdd hb,
        replaceList_head_match old.data new.data _ holdd,
        replaceList_no_match old.data new.data c.data holdd hc]
  have hfin : pyReplace (a ++ old ++ b ++ old ++ c) old new
      = a ++ new ++ b ++ new ++ c := by
    simp only [pyReplace, holdd, if_false]
    apply String.ext
    show replaceList old.data new.data ((a ++ old ++ b ++ old ++ c).data)
        = (a ++ new ++ b ++ new ++ c).data
    rw [hrl]
    simp [String.data_append]
  rw [hfin]

theorem claim_C9_witness :
    get_default_configuration_location
        (some ⟨1, "primary", 1, some "/mnt/proj/cfg/proj/v2", none, none, some "proj"⟩)
        [] "np"
      = Except.ok ⟨some "/mnt/np/cfg/np/v2", none, none⟩ := by
  obtain ⟨⟨sd, sl, sw⟩, hs, hd⟩ :=
    claim_C9 (some ⟨1, "primary", 1, some "/mnt/proj/cfg/proj/v2", none, none, some "proj"⟩)
      [] ⟨1, "primary", 1, some "/mnt/proj/cfg/proj/v2", none, none, some "proj"⟩
      "/mnt/" "/cfg/" "/v2" "proj" "np" rfl rfl (by decide) (by decide)
      (by decide) (by decide) (by decide)
  have h2 := hs.symm.trans
    (gdcl_some (some ⟨1, "primary", 1, some "/mnt/proj/cfg/proj/v2", none, none, some "proj"⟩)
      [] "np" "proj"
      ⟨1, "primary", 1, some "/mnt/proj/cfg/proj/v2", none, none, some "proj"⟩ rfl rfl)
  rw [Except.ok.injEq, SuggestedDefaults.mk.injEq] at h2
  obtain ⟨-, h2l, h2w⟩ := h2
  simp only at hd
  rw [hs, hd, h2l, h2w]
  have hstr : ("/mnt/" ++ "np" ++ "/cfg/" ++ "np" ++ "/v2" : String) = "/mnt/np/cfg/np/v2" := by
    decide
  rw [hstr]
  rfl

/-- C10: when a basis record exists but its stored path for some platform
is absent (None) or empty, that platform's suggestion is absent and the
call still returns normally — the presence guard is evaluated before the
substring test, so the substitution branch is never entered with an
absent path. -/
theorem claim_C10 (cfgInfo : Option SgRecord) (db : List SgRecord) (d : SgRecord)
    (old new : String) (hb : resolve_basis cfgInfo db = some d)
    (ht : d.tank_name = some old) :
    ∃ s : SuggestedDefaults,
      get_default_configuration_location cfgInfo db new = Except.ok s
      ∧ ((d.mac_path = none ∨ d.mac_path = some "") → s.darwin = none)
      ∧ ((d.linux_path = none ∨ d.linux_path = some "") → s.linux2 = none)
      ∧ ((d.windows_path = none ∨ d.windows_path = some "") → s.win32 = none) :=
  ⟨_, gdcl_some cfgInfo db new old d hb ht,
    fun h => path_suggestion_absent d.mac_path old new h,
    fun h => path_suggestion_absent d.linux_path old new h,
    fun h => path_suggestion_absent d.windows_path
      (pyReplace old "/" "\\") (pyReplace new "/" "\\") h⟩

theorem claim_C10_witness :
    get_default_configuration_location
        (some ⟨1, "primary", 1, none, some "", none, some "foo"⟩) [] "bar"
      = Except.ok ⟨none, none, none⟩ := by
  obtain ⟨⟨sd, sl, sw⟩, hs, hmac, hlin, hwin⟩ :=
    claim_C10 (some ⟨1, "primary", 1, none, some "", none, some "foo"⟩) []
      ⟨1, "primary", 1, none, some "", none, some "foo"⟩ "foo" "bar" rfl rfl
  have hd := hmac (Or.inl rfl)
  have hl := hlin (Or.inl rfl)
  have hw := hwin (Or.inr rfl)
  simp only at hd hl hw
  rw [hs, hd, hl, hw]

/-- The core path dictionary produced by
`pipelineconfig_utils.resolve_all_os_paths_to_core`, keyed the way
`execute` reads it. -/
structure CorePaths where
  linux2 : Option String
  win32 : Option String
  darwin : Option String
deriving DecidableEq

/-- External collaborators consulted by the core-inheritance phase of
`execute`: the running platform, the path of the currently executing core,
the core-resolution utilities and the filesystem existence test.  All are
opaque inputs; only their results drive the branching under proof. -/
structure CoreEnv where
  platform : SgPlatform
  curr_core_path : String
  resolve_all_os_paths_to_core : String → CorePaths
  path_exists : String → Bool
  get_core_path_for_config : String → Option String
  is_localized : String → Bool

/-- The core-inheritance phase of `SetupProjectWizard.execute`: start from
localize=true and the running core's paths; resolve a basis record (same
two tiers as the default-location logic); if the basis record's
current-platform root path is truthy and exists on disk and its core
resolves to a truthy location, adopt that core's per-platform paths and
set the localize flag to whether the basis configuration is localized;
in every other case keep the defaults. -/
def resolve_core_inheritance (env : CoreEnv) (cfgInfo : Option SgRecord)
    (db : List SgRecord) : Bool × CorePaths :=
  let localize_api := true
  let core_path_dict := env.resolve_all_os_paths_to_core env.curr_core_path
  match resolve_basis cfgInfo db with
  | none => (localize_api, core_path_dict)
  | some data =>
    match platform_root data env.platform with
    | none => (localize_api, core_path_dict)
    | some p =>
      if p ≠ "" ∧ env.path_exists p then
        match env.get_core_path_for_config p with
        | none => (localize_api, core_path_dict)
        | some core_api_root =>
          if core_api_root = "" then (localize_api, core_path_dict)
          else (env.is_localized p, env.resolve_all_os_paths_to_core core_api_root)
      else (localize_api, core_path_dict)

/-- C3: `execute` adopts the basis configuration's core paths and its
localization flag (localize iff the basis configuration is localized)
exactly when a basis record exists, its current-platform root path is
truthy and exists on disk, and the core location resolves to a truthy
path; in every other case the step-1 defaults (the running core's paths
and localize=true) are kept and no failure occurs. -/
theorem claim_C3 (env : CoreEnv) (cfgInfo : Option SgRecord) (db : List SgRecord) :
    (resolve_basis cfgInfo db = none →
      resolve_core_inheritance env cfgInfo db
        = (true, env.resolve_all_os_paths_to_core env.curr_core_path))
    ∧ (∀ d, resolve_basis cfgInfo db = some d →
        platform_root d env.platform = none →
        resolve_core_inheritance env cfgInfo db
          = (true, env.resolve_all_os_paths_to_core env.curr_core_path))
    ∧ (∀ d p, resolve_basis cfgInfo db = some d →
        platform_root d env.platform = some p →
        ¬ (p ≠ "" ∧ env.path_exists p = true) →
        resolve_core_inheritance env cfgInfo db
          = (true, env.resolve_all_os_paths_to_core env.curr_core_path))
    ∧ (∀ d p, resolve_basis cfgInfo db = some d →
        platform_root d env.platform = some p →
        p ≠ "" → env.path_exists p = true →
        (env.get_core_path_for_config p = none ∨ env.get_core_path_for_config p = some "") →
        resolve_core_inheritance env cfgInfo db
          = (true, env.resolve_all_os_paths_to_core env.curr_core_path))
    ∧ (∀ d p r, resolve_basis cfgInfo db = some d →
        platform_root d env.platform = some p →
        p ≠ "" → env.path_exists p = true →
        env.get_core_path_for_config p = some r → r ≠ "" →
        resolve_core_inheritance env cfgInfo db
          = (env.is_localized p, env.resolve_all_os_paths_to_core r)) := by
  refine ⟨?_, ?_, ?_, ?_, ?_⟩
  · intro h
    simp [resolve_core_inheritance, h]
  · intro d hd hp
    simp [resolve_core_inheritance, hd, hp]
  · intro d p hd hp hcond
    simp only [resolve_core_inheritance, hd, hp]
    rw [if_neg hcond]
  · intro d p hd hp hne hex hcore
    simp only [resolve_core_inheritance, hd, hp]
    rw [if_pos ⟨hne, hex⟩]
    rcases hcore with hcore | hcore <;> simp [hcore]
  · intro d p r hd hp hne hex hcore hr
    simp only [resolve_core_inheritance, hd, hp]
    rw [if_pos ⟨hne, hex⟩]
    simp [hcore, hr]

theorem claim_C3_witness :
    (resolve_core_inheritance
        ⟨SgPlatform.linux2, "/core/now", fun s => ⟨some s, none, none⟩,
         fun _ => false, fun _ => none, fun _ => false⟩
        none []
      = (true, ⟨some "/core/now", none, none⟩))
    ∧ (resolve_core_inheritance
        ⟨SgPlatform.linux2, "/core/now", fun s => ⟨some s, none, none⟩,
         fun _ => true, fun _ => some "/core/other", fun _ => true⟩
        (some ⟨1, "primary", 1, none, none, some "/cfg/root", some "p"⟩) []
      = (true, ⟨some "/core/other", none, none⟩)) := by
  constructor
  · exact (claim_C3 ⟨SgPlatform.linux2, "/core/now", fun s => ⟨some s, none, none⟩,
      fun _ => false, fun _ => none, fun _ => false⟩ none []).1 rfl
  · exact (claim_C3 ⟨SgPlatform.linux2, "/core/now", fun s => ⟨some s, none, none⟩,
      fun _ => true, fun _ => some "/core/other", fun _ => true⟩
      (some ⟨1, "primary", 1, none, none, some "/cfg/root", some "p"⟩) []).2.2.2.2
      ⟨1, "primary", 1, none, none, some "/cfg/root", some "p"⟩
      "/cfg/root" "/core/other" rfl rfl (by decide) rfl rfl (by decide)

/-- Observable side-effecting steps of `execute`, in invocation order:
committing the resolved core paths into the parameter store (argument
order linux2, win32, darwin as in the source), the pre-flight validation,
the external provisioning routine, and core localization invoked with the
current platform's configuration location and prompts suppressed.  A step
appears in the trace when it is invoked, whether or not it raises. -/
inductive WizardEvent
  | set_core (linux2 : Option String) (win32 : Option String) (darwin : Option String)
  | preflight
  | provision
  | localize (config_path : Option String) (suppress_prompts : Bool)
deriving DecidableEq

/-- Collaborator outcomes for the tail of `execute`: the result of the
pre-flight validation, of the external provisioning routine and of the
core localization routine, and the parameter store's per-platform
configuration location. -/
structure RunEnv where
  core : CoreEnv
  cfgInfo : Option SgRecord
  db : List SgRecord
  pre_setup_validation_result : Except String Unit
  run_project_setup_result : Except String Unit
  do_localize_result : Except String Unit
  configuration_location : SgPlatform → Option String

/-- `SetupProjectWizard.execute`: resolve the core inheritance, commit the
resolved core paths, run pre-flight validation, run provisioning, and, if
the localize flag ended up true, run localization against the current
platform's configuration location with prompts suppressed.  A raising
step stops the sequence; nothing already performed is undone. -/
def execute (env : RunEnv) : List WizardEvent × Except String Unit :=
  let resolved := resolve_core_inheritance env.core env.cfgInfo env.db
  let localize_api := resolved.fst
  let core_path_dict := resolved.snd
  let t0 := [WizardEvent.set_core core_path_dict.linux2 core_path_dict.win32
              core_path_dict.darwin]
  match env.pre_setup_validation_result with
  | Except.error e => (t0 ++ [WizardEvent.preflight], Except.error e)
  | Except.ok _ =>
    match env.run_project_setup_result with
    | Except.error e => (t0 ++ [WizardEvent.preflight, WizardEvent.provision], Except.error e)
    | Except.ok _ =>
      if localize_api then
        match env.do_localize_result with
        | Except.error e =>
          (t0 ++ [WizardEvent.preflight, WizardEvent.provision,
                  WizardEvent.localize (env.configuration_location env.core.platform) true],
           Except.error e)
        | Except.ok _ =>
          (t0 ++ [WizardEvent.preflight, WizardEvent.provision,
                  WizardEvent.localize (env.configuration_location env.core.platform) true],
           Except.ok ())
      else (t0 ++ [WizardEvent.preflight, WizardEvent.provision], Except.ok ())

/-- C8: `execute` performs its steps in a fixed order — commit core paths,
pre-flight validation, provisioning, then (only when the localize flag is
set) localization with prompts suppressed against the current platform's
configuration location — and an exception at any step prevents all later
steps while leaving the earlier trace in place (no rollback): a failing
pre-flight means provisioning and localization are never invoked, and a
failing provisioning means localization is never invoked. -/
theorem claim_C8 (env : RunEnv) :
    (∀ e, env.pre_setup_validation_result = Except.error e →
      execute env =
        ([WizardEvent.set_core (resolve_core_inheritance env.core env.cfgInfo env.db).snd.linux2
            (resolve_core_inheritance env.core env.cfgInfo env.db).snd.win32
            (resolve_core_inheritance env.core env.cfgInfo env.db).snd.darwin,
          WizardEvent.preflight], Except.error e)
      ∧ WizardEvent.provision ∉ (execute env).fst
      ∧ ∀ q b, WizardEvent.localize q b ∉ (execute env).fst)
    ∧ (∀ e, env.pre_setup_validation_result = Except.ok () →
        env.run_project_setup_result = Except.error e →
        execute env =
          ([WizardEvent.set_core (resolve_core_inheritance env.core env.cfgInfo env.db).snd.linux2
              (resolve_core_inheritance env.core env.cfgInfo env.db).snd.win32
              (resolve_core_inheritance env.core env.cfgInfo env.db).snd.darwin,
            WizardEvent.preflight, WizardEvent.provision], Except.error e)
        ∧ ∀ q b, WizardEvent.localize q b ∉ (execute env).fst)
    ∧ (env.pre_setup_validation_result = Except.ok () →
        env.run_project_setup_result = Except.ok () →
        (resolve_core_inheritance env.core env.cfgInfo env.db).fst = true →
        (execute env).fst =
          [WizardEvent.set_core (resolve_core_inheritance env.core env.cfgInfo env.db).snd.linux2
             (resolve_core_inheritance env.core env.cfgInfo env.db).snd.win32
             (resolve_core_inheritance env.core env.cfgInfo env.db).snd.darwin,
           WizardEvent.preflight, WizardEvent.provision,
           WizardEvent.localize (env.configuration_location env.core.platform) true]
        ∧ (execute env).snd = env.do_localize_result)
    ∧ (env.pre_setup_validation_result = Except.ok () →
        env.run_project_setup_result = Except.ok () →
        (resolve_core_inheritance env.core env.cfgInfo env.db).fst = false →
        execute env =
          ([WizardEvent.set_core (resolve_core_inheritance env.core env.cfgInfo env.db).snd.linux2
              (resolve_core_inheritance env.core env.cfgInfo env.db).snd.win32
              (resolve_core_inheritance env.core env.cfgInfo env.db).snd.darwin,
            WizardEvent.preflight, WizardEvent.provision], Except.ok ())) := by
  refine ⟨?_, ?_, ?_, ?_⟩
  · intro e he
    have hx : execute env =
        ([WizardEvent.set_core (resolve_core_inheritance env.core env.cfgInfo env.db).snd.linux2
            (resolve_core_inheritance env.core env.cfgInfo env.db).snd.win32
            (resolve_core_inheritance env.core env.cfgInfo env.db).snd.darwin,
          WizardEvent.preflight], Except.error e) := by
      simp [execute, he]
    refine ⟨hx, ?_, ?_⟩
    · rw [hx]
      simp
    · intro q b
      rw [hx]
      simp
  · intro e hv hp
    have hx : execute env =
        ([WizardEvent.set_core (resolve_core_inheritance env.core env.cfgInfo env.db).snd.linux2
            (resolve_core_inheritance env.core env.cfgInfo env.db).snd.win32
            (resolve_core_inheritance env.core env.cfgInfo env.db).snd.darwin,
          WizardEvent.preflight, WizardEvent.provision], Except.error e) := by
      simp [execute, hv, hp]
    refine ⟨hx, ?_⟩
    intro q b
    rw [hx]
    simp
  · intro hv hp hl
    cases hd : env.do_localize_result with
    | error e => constructor <;> simp [execute, hv, hp, hl, hd]
    | ok u => cases u; constructor <;> simp [execute, hv, hp, hl, hd]
  · intro hv hp hl
    simp [execute, hv, hp, hl]

theorem claim_C8_witness :
    (execute
        ⟨⟨SgPlatform.linux2, "/core/now", fun s => ⟨some s, none, none⟩,
          fun _ => false, fun _ => none, fun _ => false⟩,
         none, [], Except.error "missing disk name", Except.ok (), Except.ok (),
         fun _ => some "/cfg/loc"⟩
      = ([WizardEvent.set_core (some "/core/now") none none, WizardEvent.preflight],
         Except.error "missing disk name"))
    ∧ (execute
        ⟨⟨SgPlatform.linux2, "/core/now", fun s => ⟨some s, none, none⟩,
          fun _ => false, fun _ => none, fun _ => false⟩,
         none, [], Except.ok (), Except.ok (), Except.ok (),
         fun _ => some "/cfg/loc"⟩).fst
      = [WizardEvent.set_core (some "/core/now") none none, WizardEvent.preflight,
         WizardEvent.provision, WizardEvent.localize (some "/cfg/loc") true] := by
  constructor
  · exact ((claim_C8
      ⟨⟨SgPlatform.linux2, "/core/now", fun s => ⟨some s, none, none⟩,
        fun _ => false, fun _ => none, fun _ => false⟩,
       none, [], Except.error "missing disk name", Except.ok (), Except.ok (),
       fun _ => some "/cfg/loc"⟩).1 "missing disk name" rfl).1
  · exact ((claim_C8
      ⟨⟨SgPlatform.linux2, "/core/now", fun s => ⟨some s, none, none⟩,
        fun _ => false, fun _ => none, fun _ => false⟩,
       none, [], Except.ok (), Except.ok (), Except.ok (),
       fun _ => some "/cfg/loc"⟩).2.2.1 rfl rfl rfl).1

/-- Ambient state touched by `set_project_disk_name`: the process umask,
the set of directories that exist on disk, and the project disk name
committed into the parameter store. -/
structure FsState where
  umask : Nat
  dirs : List String
  committed_name : Option String
deriving DecidableEq

/-- Collaborators of `set_project_disk_name`: the required storages, the
per-storage path preview for the current platform, the name validator of
the parameter store, and the outcome of `os.makedirs` per path. -/
structure FolderEnv where
  required_storages : List String
  preview_project_path : String → String → String
  validate_project_disk_name : String → Except String Unit
  makedirs_result : String → Except String Unit

/-- The folder-creation loop of `set_project_disk_name`: for each required
storage, compute the current-platform project path; if it does not exist,
save the umask, clear it to 0, call `os.makedirs`, and restore the saved
umask in a `finally` block — so the restore happens whether or not
`makedirs` raises, and a raise stops the loop. -/
def create_project_folders (env : FolderEnv) (name : String) :
    List String → FsState → FsState × Except String Unit
  | [], st => (st, Except.ok ())
  | s :: rest, st =>
    let proj_path := env.preview_project_path s name
    if proj_path ∈ st.dirs then
      create_project_folders env name rest st
    else
      let old_umask := st.umask
      let st0 := { st with umask := 0 }
      match env.makedirs_result proj_path with
      | Except.error e =>
        ({ st0 with umask := old_umask }, Except.error e)
      | Except.ok _ =>
        create_project_folders env name rest
          { st0 with umask := old_umask, dirs := proj_path :: st0.dirs }

/-- Modelled from the spec: `ProjectSetupParameters.set_project_disk_name`
(setup_project_params.py is not under src/).  The ParameterStore "holds
and validates all wizard inputs", so committing the name validates it and
stores it only when valid. -/
def params_set_project_disk_name (env : FolderEnv) (name : String) (st : FsState) :
    FsState × Except String Unit :=
  match env.validate_project_disk_name name with
  | Except.error e => (st, Except.error e)
  | Except.ok _ => ({ st with committed_name := some name }, Except.ok ())

/-- `SetupProjectWizard.set_project_disk_name`: when `create_folders` is
set, validate the name first, then run the folder-creation loop over the
required storages; finally commit the name into the parameter store. -/
def set_project_disk_name (env : FolderEnv) (name : String) (create_folders : Bool)
    (st : FsState) : FsState × Except String Unit :=
  if create_folders then
    match env.validate_project_disk_name name with
    | Except.error e => (st, Except.error e)
    | Except.ok _ =>
      match create_project_folders env name env.required_storages st with
      | (st1, Except.error e) => (st1, Except.error e)
      | (st1, Except.ok _) => params_set_project_disk_name env name st1
  else
    params_set_project_disk_name env name st

theorem create_project_folders_umask (env : FolderEnv) (name : String)
    (storages : List String) (st : FsState) :
    (create_project_folders env name storages st).fst.umask = st.umask := by
  induction storages generalizing st with
  | nil => rfl
  | cons s rest ih =>
    simp only [create_project_folders]
    by_cases hmem : env.preview_project_path s name ∈ st.dirs
    · rw [if_pos hmem]
      exact ih st
    · rw [if_neg hmem]
      cases env.makedirs_result (env.preview_project_path s name) with
      | error e => rfl
      | ok u =>
        cases u
        exact ih _

/-- C4: whatever the collaborators do — in particular when `os.makedirs`
raises partway through the loop over required storages — the umask after
`set_project_disk_name` with `create_folders` set equals the umask before
the call: it is saved, cleared for each directory creation, and restored
on every exit path. -/
theorem claim_C4 (env : FolderEnv) (name : String) (st : FsState) :
    (set_project_disk_name env name true st).fst.umask = st.umask := by
  simp only [set_project_disk_name, if_pos]
  cases env.validate_project_disk_name name with
  | error e => rfl
  | ok u =>
    cases u
    have h := create_project_folders_umask env name env.required_storages st
    cases hc : create_project_folders env name env.required_storages st with
    | mk st1 r =>
      rw [hc] at h
      cases r with
      | error e => exact h
      | ok v =>
        cases v
        simp only [params_set_project_disk_name]
        cases env.validate_project_disk_name name with
        | error e => exact h
        | ok w => exact h

/-- C7: for every call to `set_project_disk_name`, with or without folder
creation, an invalid project disk name raises the validation error before
anything is committed or created: the state — committed name included —
is returned unchanged. -/
theorem claim_C7 (env : FolderEnv) (name : String) (create_folders : Bool)
    (st : FsState) (e : String)
    (h : env.validate_project_disk_name name = Except.error e) :
    set_project_disk_name env name create_folders st = (st, Except.error e) := by
  cases create_folders with
  | true => simp [set_project_disk_name, h]
  | false => simp [set_project_disk_name, params_set_project_disk_name, h]

theorem claim_C4_witness :
    (set_project_disk_name
        ⟨["primary", "textures"], fun s _ => s, fun _ => Except.ok (),
         fun p => if p = "textures" then Except.error "permission denied" else Except.ok ()⟩
        "proj" true ⟨18, [], none⟩).fst.umask = 18 :=
  claim_C4
    ⟨["primary", "textures"], fun s _ => s, fun _ => Except.ok (),
     fun p => if p = "textures" then Except.error "permission denied" else Except.ok ()⟩
    "proj" ⟨18, [], none⟩

theorem claim_C7_witness :
    set_project_disk_name
        ⟨["primary"], fun s _ => s,
         fun n => if n = "bad name" then Except.error "invalid character" else Except.ok (),
         fun _ => Except.ok ()⟩
        "bad name" false ⟨18, ["/mnt"], none⟩
      = (⟨18, ["/mnt"], none⟩, Except.error "invalid character")
    ∧ set_project_disk_name
        ⟨["primary"], fun s _ => s,
         fun n => if n = "bad name" then Except.error "invalid character" else Except.ok (),
         fun _ => Except.ok ()⟩
        "bad name" true ⟨18, ["/mnt"], none⟩
      = (⟨18, ["/mnt"], none⟩, Except.error "invalid character") :=
  ⟨claim_C7
     ⟨["primary"], fun s _ => s,
      fun n => if n = "bad name" then Except.error "invalid character" else Except.ok (),
      fun _ => Except.ok ()⟩
     "bad name" false ⟨18, ["/mnt"], none⟩ "invalid character" rfl,
   claim_C7
     ⟨["primary"], fun s _ => s,
      fun n => if n = "bad name" then Except.error "invalid character" else Except.ok (),
      fun _ => Except.ok ()⟩
     "bad name" true ⟨18, ["/mnt"], none⟩ "invalid character" rfl⟩

/-- Outcomes of the two connection attempts made by the factory:
`shotgun.create_sg_connection` for the primary site and
`shotgun.create_sg_app_store_connection` for the app store, the latter
returning a handle together with its script user.  `σ` is the type of
service handles, `τ` the type of script-user records. -/
structure ConnectEnv (σ τ : Type) where
  create_sg_connection : Except String σ
  create_sg_app_store_connection : Except String (σ × τ)

/-- `SetupProjectFactoryAction._shotgun_connect`: the primary connection
failure is wrapped in a TankError and propagated; an app-store connection
failure is caught, logged as a warning, and replaced by absent handle and
script user.  The returned triple is `(sg, sg_app_store,
sg_app_store_script_user)`. -/
def shotgun_connect {σ τ : Type} (env : ConnectEnv σ τ) :
    Except String (σ × Option σ × Option τ) :=
  match env.create_sg_connection with
  | Except.error e => Except.error ("Could not connect to Shotgun server: " ++ e)
  | Except.ok sg =>
    match env.create_sg_app_store_connection with
    | Except.error _ => Except.ok (sg, none, none)
    | Except.ok (sg_app_store, script_user) => Except.ok (sg, some sg_app_store, some script_user)

/-- C5: the two remote connections are treated asymmetrically — failure
of the primary service connection raises a TankError to the caller, while
failure of the secondary app-store connection is absorbed and the factory
proceeds with the app-store handle and its script user absent; whenever
the call returns normally its first component is the successfully
established primary handle. -/
theorem claim_C5 {σ τ : Type} (env : ConnectEnv σ τ) :
    (∀ e, env.create_sg_connection = Except.error e →
      shotgun_connect env = Except.error ("Could not connect to Shotgun server: " ++ e))
    ∧ (∀ sg e, env.create_sg_connection = Except.ok sg →
        env.create_sg_app_store_connection = Except.error e →
        shotgun_connect env = Except.ok (sg, none, none))
    ∧ (∀ sg a u, env.create_sg_connection = Except.ok sg →
        env.create_sg_app_store_connection = Except.ok (a, u) →
        shotgun_connect env = Except.ok (sg, some a, some u))
    ∧ (∀ sg rest, shotgun_connect env = Except.ok (sg, rest) →
        env.create_sg_connection = Except.ok sg) := by
  refine ⟨?_, ?_, ?_, ?_⟩
  · intro e he
    simp [shotgun_connect, he]
  · intro sg e hsg ha
    simp [shotgun_connect, hsg, ha]
  · intro sg a u hsg ha
    simp [shotgun_connect, hsg, ha]
  · intro sg rest h
    cases hsg : env.create_sg_connection with
    | error e =>
      rw [shotgun_connect, hsg] at h
      exact absurd h (by simp)
    | ok s =>
      rw [shotgun_connect, hsg] at h
      cases ha : env.create_sg_app_store_connection with
      | error e =>
        rw [ha] at h
        simp only [Except.ok.injEq, Prod.mk.injEq] at h
        rw [h.1]
      | ok p =>
        rw [ha] at h
        simp only [Except.ok.injEq, Prod.mk.injEq] at h
        rw [h.1]

theorem claim_C5_witness :
    shotgun_connect (⟨Except.error "timeout", Except.ok (7, 9)⟩ : ConnectEnv Nat Nat)
      = Except.error "Could not connect to Shotgun server: timeout"
    ∧ shotgun_connect (⟨Except.ok 3, Except.error "no app store"⟩ : ConnectEnv Nat Nat)
      = Except.ok (3, none, none)
    ∧ shotgun_connect (⟨Except.ok 3, Except.ok (7, 9)⟩ : ConnectEnv Nat Nat)
      = Except.ok (3, some 7, some 9)
    ∧ (⟨Except.ok 3, Except.ok (7, 9)⟩ : ConnectEnv Nat Nat).create_sg_connection
      = Except.ok 3 :=
  ⟨(claim_C5 (⟨Except.error "timeout", Except.ok (7, 9)⟩ : ConnectEnv Nat Nat)).1
      "timeout" rfl,
   (claim_C5 (⟨Except.ok 3, Except.error "no app store"⟩ : ConnectEnv Nat Nat)).2.1
      3 "no app store" rfl rfl,
   (claim_C5 (⟨Except.ok 3, Except.ok (7, 9)⟩ : ConnectEnv Nat Nat)).2.2.1
      3 7 9 rfl rfl,
   (claim_C5 (⟨Except.ok 3, Except.ok (7, 9)⟩ : ConnectEnv Nat Nat)).2.2.2
      3 (some 7, some 9)
      ((claim_C5 (⟨Except.ok 3, Except.ok (7, 9)⟩ : ConnectEnv Nat Nat)).2.2.1
        3 7 9 rfl rfl)⟩

/-- The three-platform inner dictionary built by `preview_project_paths`
for one storage, with exactly the keys darwin, win32 and linux2 assigned
in source order. -/
structure PlatformTriple where
  darwin : String
  win32 : String
  linux2 : String
deriving DecidableEq

/-- The read-only surface of ProjectSetupParameters that
`preview_project_paths` consults: the required storages of the committed
configuration template and the per-storage, per-platform path preview
(a pure computation per the spec of ParameterStore). -/
structure ParamsEnv where
  required_storages : List String
  preview_project_path : String → String → SgPlatform → String

/-- `SetupProjectWizard.preview_project_paths`: build one entry per
required storage, each holding the darwin, win32 and linux2 previews for
the given project disk name.  The method only reads the parameter state,
so the state is returned unchanged. -/
def preview_project_paths (env : ParamsEnv) (name : String) :
    ParamsEnv × List (String × PlatformTriple) :=
  (env,
   env.required_storages.map (fun s =>
     (s, { darwin := env.preview_project_path s name SgPlatform.darwin
           win32 := env.preview_project_path s name SgPlatform.win32
           linux2 := env.preview_project_path s name SgPlatform.linux2 })))

theorem preview_lookup (env : ParamsEnv) (name : String) (s : String) :
    List.lookup s (preview_project_paths env name).snd
      = if s ∈ env.required_storages then
          some ⟨env.preview_project_path s name SgPlatform.darwin,
                env.preview_project_path s name SgPlatform.win32,
                env.preview_project_path s name SgPlatform.linux2⟩
        else none := by
  simp only [preview_project_paths]
  induction env.required_storages with
  | nil => simp
  | cons a rest ih =>
    by_cases hsa : s = a
    · subst hsa
      simp [List.lookup]
    · have hbeq : (s == a) = false := by simp [hsa]
      simp [List.lookup, hbeq, ih, List.mem_cons, hsa]

/-- C6: `preview_project_paths` returns exactly one entry per required
storage — looking up a storage name succeeds iff it is a required storage,
and then yields exactly the three platform previews — the parameter state
is returned unchanged (no mutation), and a second call on the returned
state with the same name yields the same result. -/
theorem claim_C6 (env : ParamsEnv) (name : String) :
    ((preview_project_paths env name).fst = env)
    ∧ ((preview_project_paths env name).snd.map Prod.fst = env.required_storages)
    ∧ (∀ s, s ∈ env.required_storages →
        List.lookup s (preview_project_paths env name).snd
          = some ⟨env.preview_project_path s name SgPlatform.darwin,
                  env.preview_project_path s name SgPlatform.win32,
                  env.preview_project_path s name SgPlatform.linux2⟩)
    ∧ (∀ s, s ∉ env.required_storages →
        List.lookup s (preview_project_paths env name).snd = none)
    ∧ (preview_project_paths (preview_project_paths env name).fst name
        = preview_project_paths env name) := by
  refine ⟨rfl, ?_, ?_, ?_, rfl⟩
  · simp only [preview_project_paths]
    induction env.required_storages with
    | nil => rfl
    | cons a rest ih => simpa using ih
  · intro s hs
    rw [preview_lookup, if_pos hs]
  · intro s hs
    rw [preview_lookup, if_neg hs]

theorem claim_C6_witness :
    ((preview_project_paths ⟨["primary", "textures"], fun s n _ => s ++ "/" ++ n⟩ "proj").fst
      = ⟨["primary", "textures"], fun s n _ => s ++ "/" ++ n⟩)
    ∧ ((preview_project_paths ⟨["primary", "textures"], fun s n _ => s ++ "/" ++ n⟩
          "proj").snd.map Prod.fst = ["primary", "textures"])
    ∧ List.lookup "textures"
        (preview_project_paths ⟨["primary", "textures"], fun s n _ => s ++ "/" ++ n⟩
          "proj").snd
      = some ⟨"textures/proj", "textures/proj", "textures/proj"⟩
    ∧ List.lookup "sound"
        (preview_project_paths ⟨["primary", "textures"], fun s n _ => s ++ "/" ++ n⟩
          "proj").snd
      = none := by
  have h := claim_C6 ⟨["primary", "textures"], fun s n _ => s ++ "/" ++ n⟩ "proj"
  exact ⟨h.1, h.2.1,
    (h.2.2.1 "textures" (by simp)).trans (by rfl),
    h.2.2.2.1 "sound" (by simp)⟩

end Tank
